import Mathlib

/-!
Shallow embedding of the UNO rules engine in `backend/server.py`
(repository Divyanshu9794/Uno_game).

Python lists are modelled as Lean `List`s in the same order, so
`list.pop()` removes the last element and `list.insert(0, x)` conses at
the front.  Python's `%` on `int` is the mathematical (euclidean)
remainder, modelled by `Int.emod` (Lean's `%` on `Int`).  Randomness
(deck shuffles, the synthesized drawn card) and uuid generation are
modelled as explicit parameters.  The Mongo read-modify-write cycle of
each endpoint is modelled by the `*Endpoint` wrappers: the stored state
is replaced only on the success path, exactly where `replace_one` is
called in the source.
-/

namespace Uno

/-- `Card` model (server.py lines 29-31): a color and a value, both strings. -/
structure Card where
  color : String
  value : String
deriving DecidableEq, Repr

/-- `Player` model (server.py lines 33-37). -/
structure Player where
  id : String
  name : String
  hand : List Card
  card_count : Nat
deriving DecidableEq, Repr

/-- `GameState` model (server.py lines 39-51).  `draw_pile_count` is a Python
`int`, kept as `Int` so that the `max(0, _ - 1)` floor in `draw_card` is
meaningful. -/
structure GameState where
  game_id : String
  players : List Player
  current_player_index : Nat
  direction : Int
  discard_pile : List Card
  top_card : Card
  draw_pile_count : Int
  winner : Option String
  game_over : Bool
  last_action : Option String
deriving DecidableEq, Repr

/-- `PlayCardRequest` (server.py lines 56-59). -/
structure PlayCardRequest where
  player_id : String
  card : Card
  chosen_color : Option String
deriving DecidableEq, Repr

/-- `DrawCardRequest` (server.py lines 61-62). -/
structure DrawCardRequest where
  player_id : String
deriving DecidableEq, Repr

/-- `UnoCallRequest` (server.py lines 64-65). -/
structure UnoCallRequest where
  player_id : String
deriving DecidableEq, Repr

/-- The four non-wild colors (server.py line 71). -/
def colors : List String := ["red", "blue", "green", "yellow"]

/-- Number cards of one color: one "0" and two each of "1".."9"
(server.py lines 74-78). -/
def numberCards (color : String) : List Card :=
  Card.mk color "0" ::
    ((List.range' 1 9).map fun num =>
      [Card.mk color (toString num), Card.mk color (toString num)]).flatten

/-- Action cards of one color: two each of skip/reverse/draw2
(server.py lines 81-85). -/
def actionCards (color : String) : List Card :=
  ((List.range 2).map fun _ =>
    [Card.mk color "skip", Card.mk color "reverse", Card.mk color "draw2"]).flatten

/-- Wild cards: four wild and four wild4, interleaved as in the source loop
(server.py lines 88-90). -/
def wildCards : List Card :=
  ((List.range 4).map fun _ =>
    [Card.mk "wild" "wild", Card.mk "wild" "wild4"]).flatten

/-- `create_deck` (server.py lines 68-92): the 108-card UNO deck. -/
def create_deck : List Card :=
  (colors.map numberCards).flatten ++ (colors.map actionCards).flatten ++ wildCards

/-- `can_play_card` (server.py lines 94-102). -/
def can_play_card (card top_card : Card) : Bool :=
  if card.color == "wild" then true
  else if card.color == top_card.color then true
  else if card.value == top_card.value then true
  else false

/-- The `for idx, c in enumerate(current_player.hand)` search loop of
`play_card` (server.py lines 177-181): index of the first card in the hand
matching the request card on both color and value. -/
def findCardIdx (card : Card) : List Card → Option Nat
  | [] => none
  | c :: rest =>
    if c.color == card.color && c.value == card.value then some 0
    else (findCardIdx card rest).map (· + 1)

/-- Python truthiness of the `Optional[str]` field `request.chosen_color`
(server.py line 195): `None` and the empty string are falsy. -/
def isTruthy : Option String → Bool
  | none => false
  | some s => !(s == "")

/-- `(idx + change * dir) % n` with Python `%` semantics (non-negative for a
positive modulus), as used on server.py lines 238 and 283. -/
def advanceIndex (idx : Nat) (change dir : Int) (n : Nat) : Nat :=
  (((idx : Int) + change * dir) % (n : Int)).toNat

/-- Rejection reasons of the `play` endpoint (server.py lines 168-188).
`indexError` models the `IndexError` Python would raise on
`players[current_player_index]` when the index is out of range. -/
inductive PlayError
  | gameOver | notYourTurn | cardNotInHand | illegalPlay | indexError
deriving DecidableEq, Repr

/-- Rejection reasons of the `draw` endpoint (server.py lines 254-260). -/
inductive DrawError
  | gameOver | notYourTurn | indexError
deriving DecidableEq, Repr

/-- Rejection reasons of the `uno` endpoint (server.py lines 300-309). -/
inductive UnoError
  | playerNotFound | invalidUnoCall
deriving DecidableEq, Repr

/-- Rejection reasons of `create_new_game` (server.py lines 107-108).
`internalError` covers the unreachable crash paths (popping an empty deck)
and exhaustion of the fuel bounding the top-card retry loop. -/
inductive CreateError
  | invalidPlayerCount | internalError
deriving DecidableEq, Repr

/-- `play_card` (server.py lines 159-243), the in-memory transition: checks in
source order (game over, turn, card in hand, legality), then removes the card,
recolors a wild when a truthy `chosen_color` is present, appends to the discard
pile, checks the win condition, and otherwise applies the action-card dispatch
and advances the turn pointer.  Returns the new state and the action tag. -/
def play_card (s : GameState) (r : PlayCardRequest) :
    Except PlayError (GameState × Option String) :=
  if s.game_over then .error .gameOver
  else
    match s.players.get? s.current_player_index with
    | none => .error .indexError
    | some current_player =>
      if !(current_player.id == r.player_id) then .error .notYourTurn
      else
        match findCardIdx r.card current_player.hand with
        | none => .error .cardNotInHand
        | some idx =>
          if !(can_play_card r.card s.top_card) then .error .illegalPlay
          else
            let played_card := (current_player.hand.get? idx).getD r.card
            let hand' := current_player.hand.eraseIdx idx
            let current_player' : Player :=
              { current_player with hand := hand', card_count := hand'.length }
            let played_card' :=
              if played_card.color == "wild" && isTruthy r.chosen_color then
                Card.mk (r.chosen_color.getD "") played_card.value
              else played_card
            let s1 : GameState :=
              { s with
                players := s.players.set s.current_player_index current_player',
                discard_pile := s.discard_pile ++ [played_card'],
                top_card := played_card' }
            if hand'.length == 0 then
              .ok ({ s1 with
                      winner := some current_player'.name,
                      game_over := true,
                      last_action := some (current_player'.name ++ " wins!") },
                   some "win")
            else
              let dispatch : Option String × Int × String :=
                if played_card'.value == "skip" then
                  (some "skip", 2, current_player'.name ++ " played Skip")
                else if played_card'.value == "reverse" then
                  (some "reverse", 1, current_player'.name ++ " reversed direction")
                else if played_card'.value == "draw2" then
                  (some "draw2", 2, current_player'.name ++ " played Draw Two")
                else if played_card'.value == "wild4" then
                  (some "wild4", 2, current_player'.name ++ " played Wild Draw Four")
                else if played_card'.value == "wild" then
                  (some "wild", 1, current_player'.name ++ " played Wild")
                else
                  (none, 1, current_player'.name ++ " played " ++
                    played_card'.color ++ " " ++ played_card'.value)
              let direction' :=
                if played_card'.value == "reverse" then s.direction * -1
                else s.direction
              let s2 : GameState :=
                { s1 with
                  direction := direction',
                  last_action := some dispatch.2.2,
                  current_player_index :=
                    (advanceIndex s.current_player_index dispatch.2.1 direction'
                      s.players.length) }
              .ok (s2, dispatch.1)

/-- `draw_card` (server.py lines 245-288).  The randomly synthesized card is
passed in as `new_card`; everything after the synthesis follows the source:
append to the hand, refresh `card_count`, floor-decrement `draw_pile_count`,
and advance the turn pointer by one seat exactly when the card is unplayable. -/
def draw_card (s : GameState) (r : DrawCardRequest) (new_card : Card) :
    Except DrawError (GameState × Card × Bool) :=
  if s.game_over then .error .gameOver
  else
    match s.players.get? s.current_player_index with
    | none => .error .indexError
    | some current_player =>
      if !(current_player.id == r.player_id) then .error .notYourTurn
      else
        let hand' := current_player.hand ++ [new_card]
        let current_player' : Player :=
          { current_player with hand := hand', card_count := hand'.length }
        let s1 : GameState :=
          { s with
            players := s.players.set s.current_player_index current_player',
            draw_pile_count := max 0 (s.draw_pile_count - 1),
            last_action := some (current_player.name ++ " drew a card") }
        let canPlay := can_play_card new_card s1.top_card
        let s2 :=
          if !canPlay then
            { s1 with current_player_index :=
                (advanceIndex s1.current_player_index 1 s1.direction
                  s1.players.length) }
          else s1
        .ok (s2, new_card, canPlay)

/-- `call_uno` (server.py lines 290-309): find the player by id anywhere in the
seat list; succeed (updating `last_action`) iff the hand has exactly one card.
Note the source performs no `game_over` check here. -/
def call_uno (s : GameState) (r : UnoCallRequest) : Except UnoError GameState :=
  match s.players.find? (fun p => p.id == r.player_id) with
  | none => .error .playerNotFound
  | some player =>
    if player.hand.length == 1 then
      .ok { s with last_action := some (player.name ++ " called UNO!") }
    else .error .invalidUnoCall

/-- The `play` endpoint as seen through the database: `replace_one` runs only
on the success paths (server.py lines 207 and 241), so a rejection leaves the
stored state untouched. -/
def playEndpoint (s : GameState) (r : PlayCardRequest) :
    GameState × Except PlayError (Option String) :=
  match play_card s r with
  | .error e => (s, .error e)
  | .ok (s', a) => (s', .ok a)

/-- The `draw` endpoint through the database (`replace_one` on line 286 only). -/
def drawEndpoint (s : GameState) (r : DrawCardRequest) (new_card : Card) :
    GameState × Except DrawError (Card × Bool) :=
  match draw_card s r new_card with
  | .error e => (s, .error e)
  | .ok (s', c, b) => (s', .ok (c, b))

/-- The `uno` endpoint through the database (`replace_one` on line 306 only). -/
def unoEndpoint (s : GameState) (r : UnoCallRequest) :
    GameState × Except UnoError Unit :=
  match call_uno s r with
  | .error e => (s, .error e)
  | .ok s' => (s', .ok ())

/-- Python `deck.pop()`: the last element and the rest, `none` on an empty
list (where Python raises `IndexError`). -/
def pop? (d : List Card) : Option (Card × List Card) :=
  match d.getLast? with
  | none => none
  | some c => some (c, d.dropLast)

/-- `[deck.pop() for _ in range(n)]` (server.py line 117): the popped cards in
pop order and the remaining deck. -/
def popN : Nat → List Card → Option (List Card × List Card)
  | 0, d => some ([], d)
  | n + 1, d =>
    match pop? d with
    | none => none
    | some (c, d') =>
      match popN n d' with
      | none => none
      | some (cs, d'') => some (c :: cs, d'')

/-- The dealing loop of `create_new_game` (server.py lines 115-123): seven
cards per name in order, one `Player` per name with a fresh id drawn from the
injected uuid source (the `k`-th player gets `uuid k`). -/
def dealPlayers (uuid : Nat → String) :
    List String → Nat → List Card → Option (List Player × List Card)
  | [], _, d => some ([], d)
  | name :: rest, k, d =>
    match popN 7 d with
    | none => none
    | some (hand, d') =>
      match dealPlayers uuid rest (k + 1) d' with
      | none => none
      | some (ps, d'') => some (⟨uuid k, name, hand, hand.length⟩ :: ps, d'')

/-- The action/wild values rejected as initial top card (server.py line 127). -/
def actionValues : List String := ["wild", "wild4", "skip", "reverse", "draw2"]

/-- The initial-top-card retry loop (server.py lines 127-130): while the
candidate is an action/wild card, put it back at the bottom (`insert(0, _)`),
reshuffle with the `k`-th shuffle of the injected stream `S`, and pop a new
candidate.  `fuel` bounds the number of retries; `none` models both fuel
exhaustion (a non-terminating run) and the unreachable empty-deck pop. -/
def topCardLoop (S : Nat → List Card → List Card) :
    Nat → Nat → Card → List Card → Option (Card × List Card)
  | k, fuel, c, d =>
    if actionValues.contains c.value then
      match fuel with
      | 0 => none
      | fuel' + 1 =>
        match pop? (S k (c :: d)) with
        | none => none
        | some (c', d') => topCardLoop S (k + 1) fuel' c' d'
    else some (c, d)

/-- `create_new_game` (server.py lines 104-149), parametrized by the initial
shuffle `S0`, the retry-loop shuffle stream `S`, the uuid source, the game id
and the retry fuel. -/
def create_new_game (S0 : List Card → List Card) (S : Nat → List Card → List Card)
    (uuid : Nat → String) (gid : String) (fuel : Nat) (names : List String) :
    Except CreateError GameState :=
  if names.length < 2 || names.length > 4 then .error .invalidPlayerCount
  else
    let deck := S0 create_deck
    match dealPlayers uuid names 0 deck with
    | none => .error .internalError
    | some (players, deck1) =>
      match pop? deck1 with
      | none => .error .internalError
      | some (c0, deck2) =>
        match topCardLoop S 0 fuel c0 deck2 with
        | none => .error .internalError
        | some (top, deck3) =>
          .ok { game_id := gid, players := players, current_player_index := 0,
                direction := 1, discard_pile := [top], top_card := top,
                draw_pile_count := (deck3.length : Int), winner := none,
                game_over := false, last_action := some "Game started" }

/-- An adversarial but legitimate shuffle (a permutation of its input): all
non-action cards first, then all action/wild cards, so the card popped from
the top is an action card whenever the deck holds one. -/
def badShuffle (d : List Card) : List Card :=
  d.filter (fun c => !(actionValues.contains c.value)) ++
    d.filter (fun c => actionValues.contains c.value)

/-- Termination of the initial-top-card retry loop from candidate `c` and
deck `d` under the shuffle stream `S`: some finite fuel suffices. -/
def loopTerminates (S : Nat → List Card → List Card) (c : Card) (d : List Card) :
    Prop :=
  ∃ fuel r, topCardLoop S 0 fuel c d = some r

/-- The success tail of `play_card`, with the four checks already passed and
the matched hand card (equal to the request card) substituted. -/
def playSuccess (s : GameState) (r : PlayCardRequest) (p : Player) (i : Nat) :
    GameState × Option String :=
  let hand' := p.hand.eraseIdx i
  let p' : Player := { p with hand := hand', card_count := hand'.length }
  let played' :=
    if r.card.color == "wild" && isTruthy r.chosen_color then
      Card.mk (r.chosen_color.getD "") r.card.value
    else r.card
  let s1 : GameState :=
    { s with
      players := s.players.set s.current_player_index p',
      discard_pile := s.discard_pile ++ [played'],
      top_card := played' }
  if hand'.length == 0 then
    ({ s1 with
        winner := some p'.name,
        game_over := true,
        last_action := some (p'.name ++ " wins!") }, some "win")
  else
    let dispatch : Option String × Int × String :=
      if played'.value == "skip" then
        (some "skip", 2, p'.name ++ " played Skip")
      else if played'.value == "reverse" then
        (some "reverse", 1, p'.name ++ " reversed direction")
      else if played'.value == "draw2" then
        (some "draw2", 2, p'.name ++ " played Draw Two")
      else if played'.value == "wild4" then
        (some "wild4", 2, p'.name ++ " played Wild Draw Four")
      else if played'.value == "wild" then
        (some "wild", 1, p'.name ++ " played Wild")
      else
        (none, 1, p'.name ++ " played " ++ played'.color ++ " " ++ played'.value)
    let direction' :=
      if played'.value == "reverse" then s.direction * -1 else s.direction
    ({ s1 with
        direction := direction',
        last_action := some dispatch.2.2,
        current_player_index :=
          (advanceIndex s.current_player_index dispatch.2.1 direction'
            s.players.length) }, dispatch.1)

/-- The first matching index found by the hand-search loop indeed holds a card
equal (fieldwise) to the request card. -/
theorem findCardIdx_get? {card : Card} :
    ∀ {l : List Card} {i : Nat}, findCardIdx card l = some i → l.get? i = some card := by
  intro l
  induction l with
  | nil => intro i h; simp [findCardIdx] at h
  | cons c rest ih =>
    intro i h
    rw [findCardIdx] at h
    by_cases hc : (c.color == card.color && c.value == card.value) = true
    · rw [if_pos hc] at h
      injection h with h
      subst h
      have hcc : c = card := by
        cases c; cases card
        simp only [Bool.and_eq_true, beq_iff_eq] at hc
        simp [hc.1, hc.2]
      simp [hcc]
    · rw [if_neg hc] at h
      cases hrec : findCardIdx card rest with
      | none => rw [hrec] at h; simp at h
      | some j =>
        rw [hrec] at h
        have h' : j + 1 = i := by simpa using h
        subst h'
        simpa using ih hrec

/-- The turn-pointer arithmetic is the mathematical non-negative remainder and
yields an in-range index whenever the player list is nonempty. -/
theorem advanceIndex_spec {idx : Nat} {change dir : Int} {n : Nat} (hn : 0 < n) :
    ((advanceIndex idx change dir n : Nat) : Int) =
      ((idx : Int) + change * dir) % (n : Int) ∧
      advanceIndex idx change dir n < n := by
  have hn' : (0 : Int) < (n : Int) := by exact_mod_cast hn
  have h0 : (0 : Int) ≤ ((idx : Int) + change * dir) % (n : Int) :=
    Int.emod_nonneg _ (by omega)
  have h1 : ((idx : Int) + change * dir) % (n : Int) < (n : Int) :=
    Int.emod_lt_of_pos _ hn'
  unfold advanceIndex
  omega

/-- A `get?` hit implies the index is in range. -/
theorem get?_some_lt {α : Type} {l : List α} {n : Nat} {x : α} (h : l.get? n = some x) :
    n < l.length := by
  by_contra hle
  rw [List.get?_eq_none.mpr (by omega)] at h
  exact Option.noConfusion h

/-- Reduction of `play_card` once the four preconditions hold: the transition
is the success tail applied to the matched card. -/
theorem play_card_eq_of_checks {s : GameState} {r : PlayCardRequest} {p : Player}
    {i : Nat}
    (h0 : s.game_over = false)
    (h1 : s.players.get? s.current_player_index = some p)
    (h2 : p.id = r.player_id)
    (h3 : findCardIdx r.card p.hand = some i)
    (h4 : can_play_card r.card s.top_card = true) :
    play_card s r = .ok (playSuccess s r p i) := by
  have hget : p.hand.get? i = some r.card := findCardIdx_get? h3
  simp only [play_card, playSuccess, h0, h1, h2, h3, h4, hget, Option.getD_some,
    beq_self_eq_true, Bool.not_true, Bool.false_eq_true, if_false, ite_false,
    apply_ite (fun x : GameState × Option String =>
      (Except.ok x : Except PlayError (GameState × Option String)))]

end Uno

namespace Uno

/-! Concrete fixtures used by witnesses and counterexamples. -/

/-- A three-card hand for the first seat. -/
def wAlice : Player :=
  ⟨"idA", "Alice", [Card.mk "red" "7", Card.mk "red" "skip", Card.mk "blue" "3"], 3⟩

/-- A one-card hand for the second seat. -/
def wBob : Player := ⟨"idB", "Bob", [Card.mk "green" "2"], 1⟩

/-- A one-card hand for the third seat. -/
def wCarol : Player := ⟨"idC", "Carol", [Card.mk "yellow" "9"], 1⟩

/-- A mid-game three-player state: Alice to act on a red 1, clockwise. -/
def wState : GameState :=
  ⟨"g1", [wAlice, wBob, wCarol], 0, 1, [Card.mk "red" "1"], Card.mk "red" "1",
    50, none, false, none⟩

/-- C1: for a legal, non-winning play, `play_card` flips the direction first
when the card is a reverse, takes `next_player_change` as `2` for
skip/draw2/wild4 and `1` otherwise (reverse and wild included), and sets
`current_player_index` to the mathematical non-negative remainder of
`current_player_index + next_player_change * direction` modulo the number of
players, which is always in range. -/
theorem C1_play_advances_turn (s : GameState) (r : PlayCardRequest) (p : Player) (i : Nat)
    (h0 : s.game_over = false)
    (h1 : s.players.get? s.current_player_index = some p)
    (h2 : p.id = r.player_id)
    (h3 : findCardIdx r.card p.hand = some i)
    (h4 : can_play_card r.card s.top_card = true)
    (h5 : p.hand.eraseIdx i ≠ []) :
    ∃ s' a, play_card s r = .ok (s', a) ∧
      s'.direction = (if r.card.value = "reverse" then s.direction * -1 else s.direction) ∧
      ((s'.current_player_index : Int) =
        ((s.current_player_index : Int) +
          (if r.card.value = "skip" ∨ r.card.value = "draw2" ∨ r.card.value = "wild4"
            then (2 : Int) else 1) * s'.direction) % (s.players.length : Int)) ∧
      s'.current_player_index < s.players.length := by
  have hmain := play_card_eq_of_checks h0 h1 h2 h3 h4
  have hn : 0 < s.players.length := by
    have := get?_some_lt h1; omega
  refine ⟨(playSuccess s r p i).1, (playSuccess s r p i).2, by rw [hmain], ?_⟩
  have h5' : (((p.hand.eraseIdx i).length == 0) : Bool) = false := by
    rw [beq_eq_false_iff_ne]
    simpa [List.length_eq_zero] using h5
  by_cases hsk : r.card.value = "skip"
  · simp [playSuccess, h5', apply_ite Card.value, hsk]
    exact ⟨(@advanceIndex_spec s.current_player_index 2 s.direction s.players.length hn).1,
      (@advanceIndex_spec s.current_player_index 2 s.direction s.players.length hn).2⟩
  · by_cases hrv : r.card.value = "reverse"
    · simp [playSuccess, h5', apply_ite Card.value, hrv]
      refine ⟨?_, ?_⟩
      · have := (@advanceIndex_spec s.current_player_index 1 (s.direction * -1)
          s.players.length hn).1
        simpa using this
      · simpa using (@advanceIndex_spec s.current_player_index 1 (s.direction * -1)
          s.players.length hn).2
    · by_cases hd2 : r.card.value = "draw2"
      · simp [playSuccess, h5', apply_ite Card.value, hsk, hrv, hd2]
        exact ⟨(@advanceIndex_spec s.current_player_index 2 s.direction s.players.length hn).1,
          (@advanceIndex_spec s.current_player_index 2 s.direction s.players.length hn).2⟩
      · by_cases hw4 : r.card.value = "wild4"
        · simp [playSuccess, h5', apply_ite Card.value, hsk, hrv, hd2, hw4]
          exact ⟨(@advanceIndex_spec s.current_player_index 2 s.direction s.players.length hn).1,
            (@advanceIndex_spec s.current_player_index 2 s.direction s.players.length hn).2⟩
        · by_cases hw : r.card.value = "wild"
          · simp [playSuccess, h5', apply_ite Card.value, hsk, hrv, hd2, hw4, hw]
            refine ⟨?_, ?_⟩
            · have := (@advanceIndex_spec s.current_player_index 1 s.direction
                s.players.length hn).1
              simpa using this
            · exact (@advanceIndex_spec s.current_player_index 1 s.direction
                s.players.length hn).2
          · simp [playSuccess, h5', apply_ite Card.value, hsk, hrv, hd2, hw4, hw]
            refine ⟨?_, ?_⟩
            · have := (@advanceIndex_spec s.current_player_index 1 s.direction
                s.players.length hn).1
              simpa using this
            · exact (@advanceIndex_spec s.current_player_index 1 s.direction
                s.players.length hn).2

/-- C1 witness: Alice legally plays her red skip on a red 1 in the concrete
three-player game. -/
theorem C1_witness :
    ∃ s' a, play_card wState ⟨"idA", Card.mk "red" "skip", none⟩ = .ok (s', a) ∧
      s'.direction =
        (if (Card.mk "red" "skip").value = "reverse" then wState.direction * -1
         else wState.direction) ∧
      ((s'.current_player_index : Int) =
        ((wState.current_player_index : Int) +
          (if (Card.mk "red" "skip").value = "skip" ∨
              (Card.mk "red" "skip").value = "draw2" ∨
              (Card.mk "red" "skip").value = "wild4"
            then (2 : Int) else 1) * s'.direction) % (wState.players.length : Int)) ∧
      s'.current_player_index < wState.players.length :=
  C1_play_advances_turn wState ⟨"idA", Card.mk "red" "skip", none⟩ wAlice 1
    rfl rfl rfl rfl rfl (by decide)

end Uno

namespace Uno

/-- A state where Bob (seat 1) holds a single matching card on a green 1. -/
def wStateB : GameState :=
  ⟨"g1", [wAlice, wBob, wCarol], 1, 1, [Card.mk "green" "1"], Card.mk "green" "1",
    50, none, false, none⟩

/-- C2: a legal play that empties the acting player's hand sets the winner to
that player's name, sets `game_over`, returns the `"win"` action tag, and
returns before the action-card effects: `current_player_index` and `direction`
are unchanged. -/
theorem C2_win_play (s : GameState) (r : PlayCardRequest) (p : Player) (i : Nat)
    (h0 : s.game_over = false)
    (h1 : s.players.get? s.current_player_index = some p)
    (h2 : p.id = r.player_id)
    (h3 : findCardIdx r.card p.hand = some i)
    (h4 : can_play_card r.card s.top_card = true)
    (h5 : p.hand.eraseIdx i = []) :
    ∃ s', play_card s r = .ok (s', some "win") ∧
      s'.winner = some p.name ∧
      s'.game_over = true ∧
      s'.current_player_index = s.current_player_index ∧
      s'.direction = s.direction := by
  have hmain := play_card_eq_of_checks h0 h1 h2 h3 h4
  have hp2 : (playSuccess s r p i).2 = some "win" := by simp [playSuccess, h5]
  refine ⟨(playSuccess s r p i).1, ?_, ?_, ?_, ?_, ?_⟩
  · rw [hmain, ← hp2, Prod.mk.eta]
  · simp [playSuccess, h5]
  · simp [playSuccess, h5]
  · simp [playSuccess, h5]
  · simp [playSuccess, h5]

/-- C2 witness: Bob plays his single green 2 on a green 1 and wins; the turn
pointer and direction are untouched. -/
theorem C2_witness :
    ∃ s', play_card wStateB ⟨"idB", Card.mk "green" "2", none⟩ = .ok (s', some "win") ∧
      s'.winner = some "Bob" ∧
      s'.game_over = true ∧
      s'.current_player_index = wStateB.current_player_index ∧
      s'.direction = wStateB.direction :=
  C2_win_play wStateB ⟨"idB", Card.mk "green" "2", none⟩ wBob 0 rfl rfl rfl rfl rfl rfl

/-- C5: `can_play_card card top` is true exactly when the card is wild-colored
or matches the top card's color or value; and the relation is genuinely
asymmetric (a wild is playable on a red 5, but not conversely). -/
theorem C5_can_play_iff :
    (∀ c t : Card, can_play_card c t = true ↔
      (c.color = "wild" ∨ c.color = t.color ∨ c.value = t.value)) ∧
    ¬(∀ c t : Card, can_play_card c t = can_play_card t c) := by
  constructor
  · intro c t
    simp [can_play_card]
  · intro h
    have := h (Card.mk "wild" "wild") (Card.mk "red" "5")
    simp [can_play_card] at this

end Uno

namespace Uno

/-- The concrete mid-game state with `game_over` already set. -/
def wStateOver : GameState := { wState with game_over := true }

/-- C3 counterexample: with `game_over = true` and Bob holding one card, the
`uno` endpoint still succeeds and changes `last_action` — it neither rejects
nor leaves the state unchanged, refuting the claim for `call_uno`. -/
theorem C3_counterexample :
    wStateOver.game_over = true ∧
    (unoEndpoint wStateOver ⟨"idB"⟩).1 ≠ wStateOver ∧
    (unoEndpoint wStateOver ⟨"idB"⟩).2 = .ok () := by
  refine ⟨rfl, ?_, rfl⟩
  intro h
  have h1 : (unoEndpoint wStateOver ⟨"idB"⟩).1.last_action = some "Bob called UNO!" := rfl
  rw [h] at h1
  simp [wStateOver, wState] at h1

/-- C3 amended: with `game_over = true`, `play` and `draw` reject with
GameOver leaving the stored state untouched, and a rejected `uno` call also
leaves it untouched; but `call_uno` performs no `game_over` check at all: when
the addressed player holds exactly one card it succeeds and rewrites
`last_action` even after the game has ended. -/
theorem C3_game_over_frozen (s : GameState) (rp : PlayCardRequest)
    (rd : DrawCardRequest) (ru : UnoCallRequest) (c : Card)
    (h : s.game_over = true) :
    playEndpoint s rp = (s, .error .gameOver) ∧
    drawEndpoint s rd c = (s, .error .gameOver) ∧
    (∀ e, (unoEndpoint s ru).2 = .error e → (unoEndpoint s ru).1 = s) ∧
    (∀ p, s.players.find? (fun q => q.id == ru.player_id) = some p →
      p.hand.length = 1 →
      unoEndpoint s ru =
        ({ s with last_action := some (p.name ++ " called UNO!") }, .ok ())) := by
  refine ⟨?_, ?_, ?_, ?_⟩
  · simp [playEndpoint, play_card, h]
  · simp [drawEndpoint, draw_card, h]
  · intro e he
    unfold unoEndpoint at he ⊢
    cases hc : call_uno s ru with
    | error e' => simp [hc]
    | ok s' => rw [hc] at he; simp at he
  · intro p hp hlen
    simp [unoEndpoint, call_uno, hp, hlen]

/-- C3 witness: the amended theorem applied to the concrete finished game. -/
theorem C3_witness :
    playEndpoint wStateOver ⟨"idA", Card.mk "red" "7", none⟩ =
      (wStateOver, .error .gameOver) ∧
    drawEndpoint wStateOver ⟨"idA"⟩ (Card.mk "red" "7") =
      (wStateOver, .error .gameOver) :=
  ⟨(C3_game_over_frozen wStateOver ⟨"idA", Card.mk "red" "7", none⟩ ⟨"idA"⟩ ⟨"idB"⟩
      (Card.mk "red" "7") rfl).1,
   (C3_game_over_frozen wStateOver ⟨"idA", Card.mk "red" "7", none⟩ ⟨"idA"⟩ ⟨"idB"⟩
      (Card.mk "red" "7") rfl).2.1⟩

/-- C4: every rejection of `play` (GameOver, NotYourTurn, CardNotInHand,
IllegalPlay) and of `draw` (GameOver, NotYourTurn) leaves the stored state
bit-identical to the input, and the checks fire in exactly the source order
with the first failure winning. -/
theorem C4_rejections_atomic (s : GameState) (r : PlayCardRequest)
    (rd : DrawCardRequest) (c : Card) :
    (∀ e, play_card s r = .error e → playEndpoint s r = (s, .error e)) ∧
    (∀ e, draw_card s rd c = .error e → drawEndpoint s rd c = (s, .error e)) ∧
    (s.game_over = true → play_card s r = .error .gameOver) ∧
    (∀ p, s.game_over = false →
      s.players.get? s.current_player_index = some p →
      (p.id == r.player_id) = false → play_card s r = .error .notYourTurn) ∧
    (∀ p, s.game_over = false →
      s.players.get? s.current_player_index = some p →
      (p.id == r.player_id) = true → findCardIdx r.card p.hand = none →
      play_card s r = .error .cardNotInHand) ∧
    (∀ p i, s.game_over = false →
      s.players.get? s.current_player_index = some p →
      (p.id == r.player_id) = true → findCardIdx r.card p.hand = some i →
      can_play_card r.card s.top_card = false →
      play_card s r = .error .illegalPlay) ∧
    (s.game_over = true → draw_card s rd c = .error .gameOver) ∧
    (∀ p, s.game_over = false →
      s.players.get? s.current_player_index = some p →
      (p.id == rd.player_id) = false → draw_card s rd c = .error .notYourTurn) := by
  refine ⟨?_, ?_, ?_, ?_, ?_, ?_, ?_, ?_⟩
  · intro e he; simp [playEndpoint, he]
  · intro e he; simp [drawEndpoint, he]
  · intro h; simp [play_card, h]
  · intro p h0 h1 h2
    rw [List.get?_eq_getElem?] at h1
    have h2' : ¬(p.id = r.player_id) := by simpa using h2
    simp [play_card, h0, h1, h2']
  · intro p h0 h1 h2 h3
    rw [List.get?_eq_getElem?] at h1
    have h2' : p.id = r.player_id := by simpa using h2
    simp [play_card, h0, h1, h2', h3]
  · intro p i h0 h1 h2 h3 h4
    rw [List.get?_eq_getElem?] at h1
    have h2' : p.id = r.player_id := by simpa using h2
    simp [play_card, h0, h1, h2', h3, h4]
  · intro h; simp [draw_card, h]
  · intro p h0 h1 h2
    rw [List.get?_eq_getElem?] at h1
    have h2' : ¬(p.id = rd.player_id) := by simpa using h2
    simp [draw_card, h0, h1, h2']

/-- C4 witness: a wrong-turn play and a post-game draw are both rejected with
the stored state unchanged. -/
theorem C4_witness :
    playEndpoint wState ⟨"idB", Card.mk "green" "2", none⟩ =
      (wState, .error .notYourTurn) ∧
    drawEndpoint wStateOver ⟨"idA"⟩ (Card.mk "red" "7") =
      (wStateOver, .error .gameOver) := by
  constructor
  · have h := C4_rejections_atomic wState ⟨"idB", Card.mk "green" "2", none⟩ ⟨"idB"⟩
      (Card.mk "red" "7")
    exact h.1 _ (h.2.2.2.1 wAlice rfl rfl rfl)
  · have h := C4_rejections_atomic wStateOver ⟨"idA", Card.mk "red" "7", none⟩ ⟨"idA"⟩
      (Card.mk "red" "7")
    exact h.2.1 _ (h.2.2.2.2.2.2.1 rfl)

end Uno

namespace Uno

/-- The success tail of `draw_card`: the synthesized card is appended, the
counters updated, and the seat advanced only when the card is unplayable. -/
def drawSuccess (s : GameState) (c : Card) (p : Player) : GameState × Card × Bool :=
  let hand' := p.hand ++ [c]
  let p' : Player := { p with hand := hand', card_count := hand'.length }
  let s1 : GameState :=
    { s with
      players := s.players.set s.current_player_index p',
      draw_pile_count := max 0 (s.draw_pile_count - 1),
      last_action := some (p.name ++ " drew a card") }
  let canPlay := can_play_card c s1.top_card
  let s2 :=
    if !canPlay then
      { s1 with current_player_index :=
          (advanceIndex s1.current_player_index 1 s1.direction s1.players.length) }
    else s1
  (s2, c, canPlay)

/-- Reduction of `draw_card` once its two preconditions hold. -/
theorem draw_card_eq_of_checks {s : GameState} {r : DrawCardRequest} {c : Card} {p : Player}
    (h0 : s.game_over = false)
    (h1 : s.players.get? s.current_player_index = some p)
    (h2 : p.id = r.player_id) :
    draw_card s r c = .ok (drawSuccess s c p) := by
  simp only [draw_card, drawSuccess, h0, h1, h2, beq_self_eq_true, Bool.not_true,
    Bool.false_eq_true, if_false, ite_false]

/-- C8: a draw by the acting player appends exactly the synthesized card to
the hand, refreshes `card_count` to the new hand length, floor-decrements
`draw_pile_count` (never below 0), and advances the seat by exactly
`direction` (one seat, Python modulo) iff the drawn card is unplayable on the
current top card; a playable draw leaves the turn pointer unchanged. -/
theorem C8_draw_effects (s : GameState) (r : DrawCardRequest) (c : Card) (p : Player)
    (h0 : s.game_over = false)
    (h1 : s.players.get? s.current_player_index = some p)
    (h2 : p.id = r.player_id) :
    ∃ s', draw_card s r c = .ok (s', c, can_play_card c s.top_card) ∧
      s'.players.get? s.current_player_index =
        some { p with hand := p.hand ++ [c], card_count := p.hand.length + 1 } ∧
      s'.draw_pile_count = max 0 (s.draw_pile_count - 1) ∧
      0 ≤ s'.draw_pile_count ∧
      (can_play_card c s.top_card = true →
        s'.current_player_index = s.current_player_index) ∧
      (can_play_card c s.top_card = false →
        ((s'.current_player_index : Int) =
          ((s.current_player_index : Int) + s.direction) % (s.players.length : Int)) ∧
        s'.current_player_index < s.players.length) := by
  have hn : s.current_player_index < s.players.length := get?_some_lt h1
  have hnn : 0 < s.players.length := by omega
  have hmain := @draw_card_eq_of_checks s r c p h0 h1 h2
  refine ⟨(drawSuccess s c p).1, ?_, ?_, ?_, ?_, ?_, ?_⟩
  · rw [hmain]
    simp [drawSuccess]
  · simp [drawSuccess, apply_ite GameState.players, List.get?_eq_getElem?]
    rw [List.getElem?_set_eq_of_lt _ hn]
  · simp [drawSuccess, apply_ite GameState.draw_pile_count]
  · simp [drawSuccess, apply_ite GameState.draw_pile_count]
  · intro ht
    simp [drawSuccess, ht]
  · intro hf
    simp [drawSuccess, hf, apply_ite GameState.current_player_index, List.length_set]
    constructor
    · have := (@advanceIndex_spec s.current_player_index 1 s.direction
        s.players.length hnn).1
      simpa using this
    · exact (@advanceIndex_spec s.current_player_index 1 s.direction
        s.players.length hnn).2

/-- C8 witness: Alice draws an unplayable blue 9 on a red 1. -/
theorem C8_witness :
    ∃ s', draw_card wState ⟨"idA"⟩ (Card.mk "blue" "9") =
        .ok (s', Card.mk "blue" "9",
          can_play_card (Card.mk "blue" "9") wState.top_card) ∧
      s'.players.get? wState.current_player_index =
        some { wAlice with hand := wAlice.hand ++ [Card.mk "blue" "9"], card_count := wAlice.hand.length + 1 } ∧
      s'.draw_pile_count = max 0 (wState.draw_pile_count - 1) ∧
      0 ≤ s'.draw_pile_count ∧
      (can_play_card (Card.mk "blue" "9") wState.top_card = true →
        s'.current_player_index = wState.current_player_index) ∧
      (can_play_card (Card.mk "blue" "9") wState.top_card = false →
        ((s'.current_player_index : Int) =
          ((wState.current_player_index : Int) + wState.direction) %
            (wState.players.length : Int)) ∧
        s'.current_player_index < wState.players.length) :=
  C8_draw_effects wState ⟨"idA"⟩ (Card.mk "blue" "9") wAlice rfl rfl rfl

end Uno

namespace Uno

/-- The top card and discard pile of a successful play: the (possibly
recolored) played card is appended and duplicated as `top_card`, in both the
win and the non-win branch. -/
theorem playSuccess_top_discard (s : GameState) (r : PlayCardRequest) (p : Player) (i : Nat) :
    (playSuccess s r p i).1.top_card =
      (if r.card.color == "wild" && isTruthy r.chosen_color then
        Card.mk (r.chosen_color.getD "") r.card.value else r.card) ∧
    (playSuccess s r p i).1.discard_pile =
      s.discard_pile ++ [if r.card.color == "wild" && isTruthy r.chosen_color then
        Card.mk (r.chosen_color.getD "") r.card.value else r.card] := by
  constructor
  · simp [playSuccess, apply_ite (fun x : GameState × Option String => x.1.top_card),
      ite_self]
  · simp [playSuccess, apply_ite (fun x : GameState × Option String => x.1.discard_pile),
      ite_self]

/-- C9: a legal wild play with a supplied chosen color places the card
recolored to that color with its value unchanged; with no chosen color the
card is placed as-is (color stays "wild") and the play is still accepted. -/
theorem C9_wild_recolor (s : GameState) (r : PlayCardRequest) (p : Player) (i : Nat)
    (h0 : s.game_over = false)
    (h1 : s.players.get? s.current_player_index = some p)
    (h2 : p.id = r.player_id)
    (h3 : findCardIdx r.card p.hand = some i)
    (h4 : can_play_card r.card s.top_card = true)
    (hw : r.card.color = "wild") :
    (∀ col, r.chosen_color = some col → col ∈ colors →
      ∃ s' a, play_card s r = .ok (s', a) ∧
        s'.top_card = Card.mk col r.card.value ∧
        s'.discard_pile = s.discard_pile ++ [Card.mk col r.card.value]) ∧
    (r.chosen_color = none →
      ∃ s' a, play_card s r = .ok (s', a) ∧
        s'.top_card = r.card ∧ s'.top_card.color = "wild" ∧
        s'.discard_pile = s.discard_pile ++ [r.card]) := by
  have hmain := play_card_eq_of_checks h0 h1 h2 h3 h4
  constructor
  · intro col hc hcol
    have hne : (col == "") = false := by
      simp [colors] at hcol
      rcases hcol with h | h | h | h <;> subst h <;> rfl
    have hcond : (r.card.color == "wild" && isTruthy r.chosen_color) = true := by
      simp [hw, hc, isTruthy, hne]
    refine ⟨(playSuccess s r p i).1, (playSuccess s r p i).2, by rw [hmain], ?_, ?_⟩
    · rw [(playSuccess_top_discard s r p i).1, hcond]
      simp [hc]
    · rw [(playSuccess_top_discard s r p i).2, hcond]
      simp [hc]
  · intro hc
    have hcond : (r.card.color == "wild" && isTruthy r.chosen_color) = false := by
      simp [hc, isTruthy]
    refine ⟨(playSuccess s r p i).1, (playSuccess s r p i).2, by rw [hmain], ?_, ?_, ?_⟩
    · rw [(playSuccess_top_discard s r p i).1, hcond]
      simp
    · rw [(playSuccess_top_discard s r p i).1, hcond]
      simp [hw]
    · rw [(playSuccess_top_discard s r p i).2, hcond]
      simp

/-- No card of the 108-card deck outside the wild color carries a wild or
wild4 value. -/
theorem create_deck_nonwild_values :
    ∀ c ∈ create_deck, c.color ≠ "wild" → c.value ≠ "wild" ∧ c.value ≠ "wild4" := by
  decide

/-- C10: a wild/wild4 played with no chosen color leaves the top card
wild-colored, and every non-wild card of the full deck is then unplayable on
it until the top card changes. -/
theorem C10_unchosen_wild_locks (s : GameState) (r : PlayCardRequest) (p : Player) (i : Nat)
    (h0 : s.game_over = false)
    (h1 : s.players.get? s.current_player_index = some p)
    (h2 : p.id = r.player_id)
    (h3 : findCardIdx r.card p.hand = some i)
    (h4 : can_play_card r.card s.top_card = true)
    (hw : r.card.color = "wild")
    (hv : r.card.value = "wild" ∨ r.card.value = "wild4")
    (hch : r.chosen_color = none) :
    ∃ s' a, play_card s r = .ok (s', a) ∧
      s'.top_card = r.card ∧ s'.top_card.color = "wild" ∧
      ∀ c ∈ create_deck, c.color ≠ "wild" → can_play_card c s'.top_card = false := by
  have hmain := play_card_eq_of_checks h0 h1 h2 h3 h4
  have hcond : (r.card.color == "wild" && isTruthy r.chosen_color) = false := by
    simp [hch, isTruthy]
  have htop : (playSuccess s r p i).1.top_card = r.card := by
    rw [(playSuccess_top_discard s r p i).1, hcond]
    simp
  refine ⟨(playSuccess s r p i).1, (playSuccess s r p i).2, by rw [hmain], htop, ?_, ?_⟩
  · rw [htop, hw]
  · intro c hcdeck hcw
    have hfacts := create_deck_nonwild_values c hcdeck hcw
    rw [htop]
    simp [can_play_card, hw, hcw]
    rcases hv with h | h <;> rw [h]
    · exact hfacts.1
    · exact hfacts.2

/-- Alice holding a wild4, to act on a red 1. -/
def wAliceW : Player := ⟨"idA", "Alice", [Card.mk "wild" "wild4", Card.mk "blue" "3"], 2⟩

/-- The concrete game in which Alice holds a wild4. -/
def wStateW : GameState :=
  ⟨"g1", [wAliceW, wBob, wCarol], 0, 1, [Card.mk "red" "1"], Card.mk "red" "1",
    50, none, false, none⟩

/-- C9 witness: Alice plays her wild4 choosing blue; the top card becomes a
blue wild4. -/
theorem C9_witness :
    ∃ s' a, play_card wStateW ⟨"idA", Card.mk "wild" "wild4", some "blue"⟩ = .ok (s', a) ∧
      s'.top_card = Card.mk "blue" "wild4" ∧
      s'.discard_pile = wStateW.discard_pile ++ [Card.mk "blue" "wild4"] :=
  (C9_wild_recolor wStateW ⟨"idA", Card.mk "wild" "wild4", some "blue"⟩ wAliceW 0
    rfl rfl rfl rfl rfl rfl).1 "blue" rfl (by decide)

/-- C10 witness: Alice plays her wild4 with no chosen color; the top card
stays wild and no non-wild deck card is playable on it. -/
theorem C10_witness :
    ∃ s' a, play_card wStateW ⟨"idA", Card.mk "wild" "wild4", none⟩ = .ok (s', a) ∧
      s'.top_card = Card.mk "wild" "wild4" ∧ s'.top_card.color = "wild" ∧
      ∀ c ∈ create_deck, c.color ≠ "wild" → can_play_card c s'.top_card = false :=
  C10_unchosen_wild_locks wStateW ⟨"idA", Card.mk "wild" "wild4", none⟩ wAliceW 0
    rfl rfl rfl rfl rfl rfl (Or.inr rfl) rfl

end Uno

namespace Uno

/-- A successful `pop?` splits the deck as `rest ++ [popped]`. -/
theorem pop?_append {d : List Card} :
    ∀ {c : Card} {d' : List Card}, pop? d = some (c, d') → d' ++ [c] = d := by
  intro c d' h
  unfold pop? at h
  cases hg : d.getLast? with
  | none => rw [hg] at h; cases h
  | some x =>
    rw [hg] at h
    have hx : x = c ∧ d.dropLast = d' := by simpa [Prod.ext_iff] using h
    obtain ⟨rfl, rfl⟩ := hx
    exact List.dropLast_append_getLast? x (by rw [hg]; rfl)

/-- Splitting a list by a predicate (negatives first) is a permutation, so
`badShuffle` is a legitimate behaviour of the shuffling randomness source. -/
theorem filter_partition_perm (p : Card → Bool) :
    ∀ l : List Card, (l.filter (fun c => !(p c)) ++ l.filter p).Perm l := by
  intro l
  induction l with
  | nil => simp
  | cons a l ih =>
    by_cases ha : p a = true
    · simp only [List.filter_cons, ha, Bool.not_true, if_false, ite_false,
        Bool.false_eq_true, if_true, ite_true]
      exact List.perm_middle.trans (ih.cons a)
    · have ha' : p a = false := by
        cases hpa : p a
        · rfl
        · exact absurd hpa ha
      simp only [List.filter_cons, ha', Bool.not_false, if_true, ite_true,
        Bool.false_eq_true, if_false, ite_false, List.cons_append]
      exact ih.cons a

/-- Partial correctness of the top-card retry loop: whenever it returns, the
returned candidate is not an action/wild card, and (for permutation shuffles)
the candidate plus deck is a permutation of the input candidate plus deck. -/
theorem topCardLoop_sound (S : Nat → List Card → List Card)
    (hS : ∀ k d, (S k d).Perm d) :
    ∀ fuel k c d c' d', topCardLoop S k fuel c d = some (c', d') →
      actionValues.contains c'.value = false ∧ (c' :: d').Perm (c :: d) := by
  intro fuel
  induction fuel with
  | zero =>
    intro k c d c' d' h
    rw [topCardLoop] at h
    by_cases hc : actionValues.contains c.value = true
    · rw [if_pos hc] at h; cases h
    · rw [if_neg hc] at h
      have hx : c = c' ∧ d = d' := by simpa [Prod.ext_iff] using h
      obtain ⟨rfl, rfl⟩ := hx
      exact ⟨by simpa using hc, List.Perm.refl _⟩
  | succ n ih =>
    intro k c d c' d' h
    rw [topCardLoop] at h
    by_cases hc : actionValues.contains c.value = true
    · rw [if_pos hc] at h
      cases hp : pop? (S k (c :: d)) with
      | none => rw [hp] at h; cases h
      | some cd =>
        obtain ⟨c2, d2⟩ := cd
        rw [hp] at h
        have h2 := ih (k + 1) c2 d2 c' d' h
        refine ⟨h2.1, h2.2.trans ?_⟩
        have happ := pop?_append hp
        have h1 : (c2 :: d2).Perm (d2 ++ [c2]) := (List.perm_append_singleton c2 d2).symm
        rw [happ] at h1
        exact h1.trans (hS k (c :: d))
    · rw [if_neg hc] at h
      have hx : c = c' ∧ d = d' := by simpa [Prod.ext_iff] using h
      obtain ⟨rfl, rfl⟩ := hx
      exact ⟨by simpa using hc, List.Perm.refl _⟩

/-- Under the adversarial permutation `badShuffle`, the retry loop revisits
the same candidate and deck forever: no fuel suffices. -/
theorem badShuffle_loop_stuck :
    ∀ fuel k, topCardLoop (fun _ => badShuffle) k fuel (Card.mk "red" "skip")
      [Card.mk "red" "5"] = none := by
  intro fuel
  induction fuel with
  | zero => intro k; rfl
  | succ n ih => intro k; exact ih (k + 1)

/-- C7 (amended): whenever the retry loop terminates it yields a non-action,
non-wild top card, and each iteration only permutes the candidate plus deck
(the rejected candidate is put at the bottom before reshuffling, so no card is
lost); termination itself is not guaranteed for every randomness behaviour. -/
theorem C7_loop_partial (S : Nat → List Card → List Card)
    (hS : ∀ k d, (S k d).Perm d)
    (fuel k : Nat) (c : Card) (d : List Card) (c' : Card) (d' : List Card)
    (h : topCardLoop S k fuel c d = some (c', d')) :
    actionValues.contains c'.value = false ∧ (c' :: d').Perm (c :: d) :=
  topCardLoop_sound S hS fuel k c d c' d' h

/-- C7 counterexample: `badShuffle` is a permutation of its input (a possible
behaviour of the randomness source), a plain numbered red 5 remains in the
deck at every iteration, yet the retry loop never terminates starting from a
red skip candidate. -/
theorem C7_counterexample :
    (¬ loopTerminates (fun _ => badShuffle) (Card.mk "red" "skip") [Card.mk "red" "5"]) ∧
    actionValues.contains (Card.mk "red" "5").value = false ∧
    (∀ d : List Card, (badShuffle d).Perm d) := by
  refine ⟨?_, rfl, ?_⟩
  · rintro ⟨fuel, r, h⟩
    rw [badShuffle_loop_stuck fuel 0] at h
    cases h
  · intro d
    exact filter_partition_perm (fun c => actionValues.contains c.value) d

/-- C7 witness: with identity shuffles a numbered candidate is returned at
once, unchanged and not an action card. -/
theorem C7_witness :
    actionValues.contains (Card.mk "yellow" "9").value = false ∧
    ((Card.mk "yellow" "9") :: ([] : List Card)).Perm [Card.mk "yellow" "9"] :=
  C7_loop_partial (fun _ => id) (fun _ d => List.Perm.refl d) 1 0
    (Card.mk "yellow" "9") [] (Card.mk "yellow" "9") [] rfl

end Uno

namespace Uno

/-- The composed deck has exactly 108 cards. -/
theorem create_deck_length : create_deck.length = 108 := rfl

/-- A nonempty deck can always be popped. -/
theorem pop?_of_ne_nil {d : List Card} (h : d ≠ []) :
    ∃ c d', pop? d = some (c, d') := by
  unfold pop?
  rw [List.getLast?_eq_getLast_of_ne_nil h]
  exact ⟨_, _, rfl⟩

/-- Popping `n` cards from a deck of at least `n` succeeds, yields `n` cards
and shortens the deck by `n`. -/
theorem popN_spec : ∀ (n : Nat) (d : List Card), n ≤ d.length →
    ∃ cs d', popN n d = some (cs, d') ∧ cs.length = n ∧ d'.length = d.length - n := by
  intro n
  induction n with
  | zero => intro d h; exact ⟨[], d, rfl, rfl, by omega⟩
  | succ m ih =>
    intro d h
    have hne : d ≠ [] := by
      intro hd; subst hd; simp at h
    obtain ⟨c, d1, hp⟩ := pop?_of_ne_nil hne
    have hlen : d1.length + 1 = d.length := by
      have := congrArg List.length (pop?_append hp)
      simpa using this
    obtain ⟨cs, d2, hrec, hcs, hd2⟩ := ih d1 (by omega)
    refine ⟨c :: cs, d2, ?_, by simp [hcs], by omega⟩
    simp only [popN, hp, hrec]

/-- Dealing seven cards per name: one player per name in order, each with a
7-card hand, `card_count = 7` and the `k`-th fresh id, consuming `7 * n`
cards. -/
theorem dealPlayers_spec (uuid : Nat → String) :
    ∀ (names : List String) (k : Nat) (d : List Card), 7 * names.length ≤ d.length →
      ∃ ps d', dealPlayers uuid names k d = some (ps, d') ∧
        ps.length = names.length ∧
        (∀ p ∈ ps, p.hand.length = 7 ∧ p.card_count = 7) ∧
        ps.map Player.id = (List.range' k names.length).map uuid ∧
        ps.map Player.name = names ∧
        d'.length = d.length - 7 * names.length := by
  intro names
  induction names with
  | nil => intro k d h; exact ⟨[], d, rfl, rfl, by simp, by simp, rfl, by simp⟩
  | cons name rest ih =>
    intro k d h
    have h7 : 7 ≤ d.length := by
      simp only [List.length_cons] at h; omega
    obtain ⟨hand, d1, hpop, hhand, hd1⟩ := popN_spec 7 d h7
    have hrest : 7 * rest.length ≤ d1.length := by
      simp only [List.length_cons] at h; omega
    obtain ⟨ps, d2, hrec, hlen, hprops, hids, hnames, hd2⟩ := ih (k + 1) d1 hrest
    refine ⟨⟨uuid k, name, hand, hand.length⟩ :: ps, d2, ?_, ?_, ?_, ?_, ?_, ?_⟩
    · simp only [dealPlayers, hpop, hrec]
    · simp [hlen]
    · intro p hp
      rcases List.mem_cons.mp hp with rfl | hmem
      · exact ⟨hhand, by simp [hhand]⟩
      · exact hprops p hmem
    · simp only [List.length_cons, List.range'_succ, List.map_cons, List.map]
      rw [hids]
    · simp [hnames]
    · simp only [List.length_cons] at *
      omega

/-- C6: a successful `create_new_game` call implies 2-4 names and yields one
player per name, each with a 7-card hand, `card_count = 7` and pairwise
distinct fresh ids; the state starts at seat 0, direction +1, game not over,
no winner, discard pile exactly the single top card, and
`draw_pile_count = 108 - 7n - 1` (the retry loop never changes the count);
fewer than 2 or more than 4 names are rejected with InvalidPlayerCount. -/
theorem C6_new_game (S0 : List Card → List Card) (S : Nat → List Card → List Card)
    (uuid : Nat → String) (gid : String) (fuel : Nat) (names : List String)
    (hS0 : (S0 create_deck).Perm create_deck)
    (hS : ∀ k d, (S k d).Perm d)
    (huuid : Function.Injective uuid) :
    (∀ st, create_new_game S0 S uuid gid fuel names = .ok st →
        2 ≤ names.length ∧ names.length ≤ 4 ∧
        st.players.length = names.length ∧
        (∀ p ∈ st.players, p.hand.length = 7 ∧ p.card_count = 7) ∧
        (st.players.map Player.id).Nodup ∧
        st.current_player_index = 0 ∧
        st.direction = 1 ∧
        st.game_over = false ∧
        st.winner = none ∧
        st.discard_pile = [st.top_card] ∧
        st.draw_pile_count = 108 - 7 * (names.length : Int) - 1) ∧
    (names.length < 2 ∨ 4 < names.length →
      create_new_game S0 S uuid gid fuel names = .error .invalidPlayerCount) := by
  constructor
  · intro st hok
    by_cases hbad : (names.length < 2 || names.length > 4) = true
    · simp only [create_new_game, hbad, if_true, ite_true] at hok
      cases hok
    · have hbad' : (names.length < 2 || names.length > 4) = false := by
        cases hb : (names.length < 2 || names.length > 4)
        · rfl
        · exact absurd hb hbad
      have hn2 : 2 ≤ names.length := by
        rcases Bool.or_eq_false_iff.mp hbad' with ⟨h1, _⟩
        simpa using of_decide_eq_false h1
      have hn4 : names.length ≤ 4 := by
        rcases Bool.or_eq_false_iff.mp hbad' with ⟨_, h2⟩
        simpa using of_decide_eq_false h2
      have hdecklen : (S0 create_deck).length = 108 :=
        hS0.length_eq.trans create_deck_length
      obtain ⟨ps, d1, hdeal, hpslen, hprops, hids, hnames, hd1len⟩ :=
        dealPlayers_spec uuid names 0 (S0 create_deck) (by rw [hdecklen]; omega)
      have hd1ne : d1 ≠ [] := by
        intro hd
        rw [hd] at hd1len
        simp at hd1len
        omega
      obtain ⟨c0, deck2, hpop⟩ := pop?_of_ne_nil hd1ne
      have hd2len : deck2.length + 1 = d1.length := by
        have := congrArg List.length (pop?_append hpop)
        simpa using this
      simp only [create_new_game, hbad', Bool.false_eq_true, if_false, ite_false,
        hdeal, hpop] at hok
      cases hloop : topCardLoop S 0 fuel c0 deck2 with
      | none => rw [hloop] at hok; cases hok
      | some td =>
        obtain ⟨top, deck3⟩ := td
        rw [hloop] at hok
        have hperm := (topCardLoop_sound S hS fuel 0 c0 deck2 top deck3 hloop).2
        have hd3len : deck3.length = deck2.length := by
          have := hperm.length_eq
          simpa using this
        injection hok with hok
        subst hok
        refine ⟨hn2, hn4, hpslen, hprops, ?_, rfl, rfl, rfl, rfl, rfl, ?_⟩
        · rw [hids]
          exact List.Nodup.map huuid (List.nodup_range' 0 names.length)
        · show (deck3.length : Int) = 108 - 7 * (names.length : Int) - 1
          rw [hdecklen] at hd1len
          have h28 : 7 * names.length ≤ 28 := by omega
          have hdl : deck3.length = 108 - 7 * names.length - 1 := by omega
          rw [hdl]
          omega
  · intro h
    have hbad : (names.length < 2 || names.length > 4) = true := by
      rcases h with h | h
      · exact Bool.or_eq_true_iff.mpr (Or.inl (decide_eq_true h))
      · exact Bool.or_eq_true_iff.mpr (Or.inr (decide_eq_true h))
    simp only [create_new_game, hbad, if_true, ite_true]

/-- An injective fresh-id source for concrete games. -/
def wUuid (k : Nat) : String := String.mk (List.replicate k 'a')

/-- `wUuid` is injective. -/
theorem wUuid_injective : Function.Injective wUuid := by
  intro a b h
  have hl : List.replicate a 'a' = List.replicate b 'a' := by
    injection h
  have := congrArg List.length hl
  simpa using this

set_option maxHeartbeats 1600000 in
/-- C6 witness: a two-player game created with the reversing shuffle ends up
with 2 players, seat 0, direction +1, game running, a singleton discard pile
and `draw_pile_count = 108 - 14 - 1 = 93`. -/
theorem C6_witness :
    ∃ st, create_new_game List.reverse (fun _ => id) wUuid "g" 1 ["A", "B"] = .ok st ∧
      st.players.length = 2 ∧ st.current_player_index = 0 ∧ st.direction = 1 ∧
      st.game_over = false ∧ st.discard_pile = [st.top_card] ∧
      st.draw_pile_count = 108 - 7 * 2 - 1 := by
  obtain ⟨st, hok⟩ :
      ∃ st, create_new_game List.reverse (fun _ => id) wUuid "g" 1 ["A", "B"] = .ok st :=
    ⟨_, rfl⟩
  have h := (C6_new_game List.reverse (fun _ => id) wUuid "g" 1 ["A", "B"]
    (List.reverse_perm create_deck) (fun _ d => List.Perm.refl d) wUuid_injective).1 st hok
  exact ⟨st, hok, h.2.2.1, h.2.2.2.2.2.1, h.2.2.2.2.2.2.1, h.2.2.2.2.2.2.2.1,
    h.2.2.2.2.2.2.2.2.2.1, h.2.2.2.2.2.2.2.2.2.2⟩

end Uno
